import Mathlib

/-!
Verification development for the rainycape/command dispatch library.

The definitions below are a shallow embedding of the Go source:

* Argument, NoArgs, Cmd, Args          — argument.go, arguments.go, command.go
* Args.validate, Args.argumentPos,
  Args.String, Args.StringAt, Args.Int — arguments.go
* atoi                                 — semantics of strconv.Atoi (base 10,
                                         64-bit int range), called by Args.Int
* commandByName                        — command.go (commandByName)
* exitStatus                           — command.go (the switch inside Exit)
* defaultFieldName, fieldFlagName      — struct-visitor file (defaultFieldName,
                                         name-tag override in visitStruct)
* FnShape, validateCmdFuncReturn,
  validateCmdFuncInput, recoverMsg,
  runCmd                               — command.go (RunOpts from the point the
                                         command has been resolved and the
                                         recoverRun defer is installed) and
                                         the recover file (recoverRun)

Go nil pointers inside a slice of pointers are modelled with Option; a Go
panic is modelled as an explicit outcome constructor carrying the rendered
panic value.  Reflection-dependent data (whether Func is a function, its
arity, whether parameter and return types match) is carried by FnShape;
runtime-resolved panic source locations are an Option (file, line) input.
-/

namespace Command

/-- One declared positional argument (argument.go). -/
structure Argument where
  Name : String
  Help : String
  Optional : Bool
deriving DecidableEq

/-- NoArgs: a one-element slice holding a single nil Argument pointer
(arguments.go). -/
def NoArgs : List (Option Argument) := [none]

/-- The error values the package can produce.  Sentinel errors are
distinguished constructors, matching Go pointer-identity comparison of the
errors.New values; formatted errors carry their rendered message. -/
inductive GoError where
  | errHelp
  | errNoCommand
  | errUnusedArguments
  | unknownCommand (name : String)
  | errMsg (msg : String)
deriving DecidableEq

/-- Rendering of an error value, as the fmt percent-s verb would show it. -/
def errMessage : GoError → String
  | .errHelp => "help has been shown"
  | .errNoCommand => "no command provided"
  | .errUnusedArguments => "arguments provided but not used"
  | .unknownCommand n => "unknown command " ++ n
  | .errMsg m => m

/-- The Go runtime panic value raised by dereferencing a nil pointer. -/
def nilDerefMsg : String :=
  "runtime error: invalid memory address or nil pointer dereference"

/-- A command (command.go).  Options is the Go field Options restricted to
what the dispatch logic inspects: whether it is non-nil. -/
structure Cmd where
  Name : String
  Help : String
  Args : List (Option Argument)
  Options : Bool
deriving DecidableEq

/-- Result of a computation that may panic; the constructor panicked carries
the rendered panic value. -/
inductive GoResult (α : Type) where
  | ok (val : α)
  | panicked (msg : String)
deriving DecidableEq

/-- The runtime argument accessor handed to handlers (arguments.go). -/
structure Args where
  args : List String
  cmd : Cmd
deriving DecidableEq

/-- newArgs (arguments.go). -/
def newArgs (values : List String) (cmd : Cmd) : Args := ⟨values, cmd⟩

/-- Outcome of the counting loop inside Args.validate: a nil-pointer
dereference, the required-after-optional error, or the required count. -/
inductive LoopResult where
  | panicNil
  | reqAfterOpt (name : String)
  | count (req : Nat)
deriving DecidableEq

/-- The loop of Args.validate (arguments.go): scans the declared arguments,
tracking whether an optional one has been seen, counting required ones.
Reading the Optional field of a nil entry is a nil dereference. -/
def validateLoop : Bool → List (Option Argument) → LoopResult
  | _, [] => .count 0
  | _, none :: _ => .panicNil
  | hasOptional, some v :: rest =>
    if v.Optional then validateLoop true rest
    else if hasOptional then .reqAfterOpt v.Name
    else
      match validateLoop false rest with
      | .count n => .count (n + 1)
      | r => r

/-- Outcome of Args.validate: panic, error return, or nil error. -/
inductive ValidateResult where
  | panicked (msg : String)
  | err (e : GoError)
  | ok
deriving DecidableEq

/-- Message of the insufficient-arguments error (arguments.go). -/
def insufficientMsg (req prov : Nat) : String :=
  toString req ++ " arguments required, but only " ++ toString prov ++ " provided"

/-- Message of the required-after-optional error (arguments.go). -/
def reqAfterOptMsg (name : String) : String :=
  "required argument \"" ++ name ++ "\" comes after optional arguments"

/-- Args.validate (arguments.go): the reflect.DeepEqual(.., NoArgs) guard,
then the counting loop, then the required-versus-provided comparison. -/
def Args.validate (a : Args) : ValidateResult :=
  if a.cmd.Args = NoArgs ∧ a.args.length > 0 then .err .errUnusedArguments
  else
    match validateLoop false a.cmd.Args with
    | .panicNil => .panicked nilDerefMsg
    | .reqAfterOpt n => .err (.errMsg (reqAfterOptMsg n))
    | .count req =>
      if req > a.args.length then .err (.errMsg (insufficientMsg req a.args.length))
      else .ok

/-- Outcome of Args.argumentPos: nil dereference while scanning, not found,
or the first index whose Name matches. -/
inductive PosResult where
  | panicNil
  | notFound
  | found (i : Nat)
deriving DecidableEq

/-- The loop of Args.argumentPos (arguments.go): first index of the declared
argument with the given name; reading Name of a nil entry panics. -/
def argumentPosGo : List (Option Argument) → String → PosResult
  | [], _ => .notFound
  | none :: _, _ => .panicNil
  | some v :: rest, name =>
    if v.Name = name then .found 0
    else
      match argumentPosGo rest name with
      | .found i => .found (i + 1)
      | r => r

/-- Args.argumentPos (arguments.go). -/
def Args.argumentPos (a : Args) (name : String) : PosResult :=
  argumentPosGo a.cmd.Args name

/-- Args.StringAt (arguments.go): the token at the position, or empty when
the position is at or past the end of the provided tokens. -/
def Args.StringAt (a : Args) (pos : Nat) : String :=
  if a.args.length ≤ pos then "" else a.args.getD pos ""

/-- The argument-not-found panic value of Args.String, from the percent-q
rendering in argumentPos (arguments.go). -/
def notFoundMsg (name : String) : String :=
  "argument \"" ++ name ++ "\" not found"

/-- Args.String (arguments.go): panics when argumentPos errors, otherwise
StringAt of the found position. -/
protected def Args.String (a : Args) (name : String) : GoResult String :=
  match a.argumentPos name with
  | .panicNil => .panicked nilDerefMsg
  | .notFound => .panicked (notFoundMsg name)
  | .found p => .ok (a.StringAt p)

/-- Value of a decimal digit character, none for a non-digit. -/
def digitVal (c : Char) : Option Nat :=
  if '0' ≤ c ∧ c ≤ '9' then some (c.toNat - '0'.toNat) else none

/-- Accumulating decimal evaluation of a digit list; none on any non-digit. -/
def digitsValAux (acc : Nat) : List Char → Option Nat
  | [] => some acc
  | c :: rest =>
    match digitVal c with
    | some d => digitsValAux (acc * 10 + d) rest
    | none => none

/-- strconv.Atoi semantics on a 64-bit platform: optional sign, at least one
decimal digit, nothing else, value within the signed 64-bit range; none on
any syntax or range error. -/
def atoi (s : String) : Option Int :=
  match s.toList with
  | [] => none
  | c :: rest =>
    let neg := c = '-'
    let ds := if c = '-' ∨ c = '+' then rest else c :: rest
    match ds with
    | [] => none
    | _ =>
      match digitsValAux 0 ds with
      | none => none
      | some n =>
        let v : Int := if neg then -(n : Int) else (n : Int)
        if v < -(2 ^ 63) ∨ v > 2 ^ 63 - 1 then none else some v

/-- The panic value of Args.Int on a parse failure (arguments.go); the
strconv error detail after the name is abstracted away. -/
def parseIntMsg (name : String) : String :=
  "error parsing int argument " ++ name

/-- Args.Int (arguments.go): String lookup, then integer parsing, panicking
when the parse fails. -/
protected def Args.Int (a : Args) (name : String) : GoResult Int :=
  match a.String name with
  | .panicked m => .panicked m
  | .ok s =>
    match atoi s with
    | some v => .ok v
    | none => .panicked (parseIntMsg name)

/-- commandByName (command.go): first command whose Name equals the token. -/
def commandByName : List Cmd → String → Option Cmd
  | [], _ => none
  | c :: rest, name => if c.Name = name then some c else commandByName rest name

/-- The status switch inside Exit (command.go); none models a nil error. -/
def exitStatus : Option GoError → Nat
  | some .errHelp => 2
  | some .errNoCommand => 3
  | some .errUnusedArguments => 4
  | none => 0
  | some _ => 1

/-- The rune loop of defaultFieldName: an uppercase rune is lowercased and,
when the accumulator is non-empty, preceded by a hyphen. -/
def defaultFieldNameAux (runes : List Char) : List Char → List Char
  | [] => runes
  | c :: rest =>
    if c.isUpper then
      defaultFieldNameAux ((if runes.isEmpty then runes else runes ++ ['-']) ++ [c.toLower]) rest
    else
      defaultFieldNameAux (runes ++ [c]) rest

/-- defaultFieldName from the struct-visitor file. -/
def defaultFieldName (name : String) : String :=
  String.mk (defaultFieldNameAux [] name.toList)

/-- The flag-name selection of visitStruct: the derived default, overridden
by a non-empty name tag. -/
def fieldFlagName (fieldName nameTag : String) : String :=
  if nameTag ≠ "" then nameTag else defaultFieldName fieldName

/-- The field-name derivation as the specification words it: each uppercase
rune is lowercased and preceded by a hyphen unless it is the first rune.
Written independently of defaultFieldName, for comparison with it. -/
def fieldNameSpec : Bool → List Char → List Char
  | _, [] => []
  | first, c :: rest =>
    (if c.isUpper then (if first then [c.toLower] else ['-', c.toLower]) else [c])
      ++ fieldNameSpec false rest

/-- The reflection facts about Cmd.Func that RunOpts inspects: whether the
value is a function, its input arity, whether input 0 is the Args pointer
type, whether input 1 equals the options type, its output arity, and
whether output 0 is the error interface type. -/
structure FnShape where
  isFunc : Bool
  numIn : Nat
  in0IsArgsPtr : Bool
  in1MatchesOpts : Bool
  numOut : Nat
  out0IsError : Bool
deriving DecidableEq

/-- What the handler does when invoked: returns nil (or has no return
value), returns an error, or panics with the given rendered value. -/
inductive FnBehavior where
  | retNil
  | retErr (e : GoError)
  | panics (v : String)
deriving DecidableEq

/-- validateCmdFuncReturn (command.go): zero outputs, or exactly one output
of the error type.  Message detail carries only the shape information the
embedding keeps. -/
def validateCmdFuncReturn (s : FnShape) : Option String :=
  if s.numOut = 0 then none
  else if s.numOut > 1 then
    some ("function must return 0 or 1 arguments, not " ++ toString s.numOut)
  else if s.out0IsError then none
  else some "function must return a value of type error"

/-- validateCmdFuncInput (command.go): first input must be the Args pointer
type; when options are present the second input must be the options type. -/
def validateCmdFuncInput (s : FnShape) (hasOpts : Bool) : Option String :=
  if s.numIn < 1 ∨ ¬ s.in0IsArgsPtr then
    some "function must accept *command.Args as its first argument"
  else if hasOpts ∧ (s.numIn < 2 ∨ ¬ s.in1MatchesOpts) then
    some "function must accept the options type as its second argument"
  else none

/-- The error message recoverRun builds (recover file): with a resolved
source location it carries file and line, otherwise not. -/
def recoverMsg (name v : String) : Option (String × Nat) → String
  | some fl =>
    "panic running command " ++ name ++ " at " ++ fl.1 ++ ":" ++ toString fl.2 ++ ": " ++ v
  | none => "panic running command " ++ name ++ ": " ++ v

/-- Outcome of the dispatch once the command is resolved: a normal return
with the error value and the diagnostic lines written to standard error, or
a panic escaping RunOpts. -/
inductive RunOutcome where
  | ret (e : Option GoError) (stderrLines : List String)
  | fatal (v : String)
deriving DecidableEq

/-- What recoverRun turns a panic into: the formatted error is both the
return value of RunOpts and written to standard error (recover file). -/
def recoveredOutcome (name v : String) (loc : Option (String × Nat)) : RunOutcome :=
  .ret (some (.errMsg (recoverMsg name v loc))) [recoverMsg name v loc]

/-- The fn.Call step of RunOpts (command.go): a panic is recovered by the
deferred recoverRun; a returned error is echoed to standard error and
returned; otherwise the nil error is returned. -/
def invokeHandler (name : String) (behavior : FnBehavior)
    (loc : Option (String × Nat)) : RunOutcome :=
  match behavior with
  | .panics v => recoveredOutcome name v loc
  | .retErr e => .ret (some e) ["error running command " ++ name ++ ": " ++ errMessage e]
  | .retNil => .ret none []

/-- RunOpts (command.go) from the point the command has been resolved and
the recoverRun defer has been installed (line 235), for a run without
global Options hooks: the not-a-function check, validateCmdFuncReturn,
validateCmdFuncInput, Args.validate, then the handler call.  Every panic
raised from here on, including the signature-validation panics and a nil
dereference inside Args.validate, is recovered by the deferred recoverRun.
Per-command flag parsing is assumed to succeed with the given leftover
tokens; loc is the panic source location the runtime resolves, when it
resolves one. -/
def runCmd (cmd : Cmd) (shape : FnShape) (behavior : FnBehavior)
    (tokens : List String) (loc : Option (String × Nat)) : RunOutcome :=
  if ¬ shape.isFunc then
    recoveredOutcome cmd.Name ("command handler " ++ cmd.Name ++ " is not a function") loc
  else
    match validateCmdFuncReturn shape with
    | some m =>
      recoveredOutcome cmd.Name ("invalid handler for command " ++ cmd.Name ++ ": " ++ m) loc
    | none =>
      match validateCmdFuncInput shape cmd.Options with
      | some m =>
        recoveredOutcome cmd.Name ("invalid handler for command " ++ cmd.Name ++ ": " ++ m) loc
      | none =>
        match (newArgs tokens cmd).validate with
        | .panicked v => recoveredOutcome cmd.Name v loc
        | .err e =>
          if e = .errUnusedArguments then
            .ret (some e) ["command " ++ cmd.Name ++ " does not accept any arguments"]
          else .ret (some e) []
        | .ok => invokeHandler cmd.Name behavior loc

/-- Well-formedness scan of a declared argument list: no nil entries and no
required argument after an optional one, tracking the optional-seen flag. -/
def argsWellFormedAux : Bool → List (Option Argument) → Bool
  | _, [] => true
  | _, none :: _ => false
  | hasOptional, some v :: rest =>
    if v.Optional then argsWellFormedAux true rest
    else !hasOptional && argsWellFormedAux false rest

/-- A well-formed declared argument list. -/
def argsWellFormed (l : List (Option Argument)) : Bool :=
  argsWellFormedAux false l

/-- Number of required (non-optional) declared arguments. -/
def reqCount : List (Option Argument) → Nat
  | [] => 0
  | none :: rest => reqCount rest
  | some v :: rest => (if v.Optional then 0 else 1) + reqCount rest

/-- No nil entries in a declared argument list. -/
def allSome : List (Option Argument) → Bool
  | [] => true
  | none :: _ => false
  | some _ :: rest => allSome rest

/-! ### Helper lemmas -/

/-- On a well-formed argument list the validate loop returns the count of
required arguments. -/
theorem validateLoop_count_of_wf :
    ∀ (l : List (Option Argument)) (b : Bool), argsWellFormedAux b l = true →
      validateLoop b l = .count (reqCount l) := by
  intro l
  induction l with
  | nil => intro b _; rfl
  | cons x rest ih =>
    intro b hwf
    cases x with
    | none => simp [argsWellFormedAux] at hwf
    | some v =>
      cases hv : v.Optional with
      | true =>
        simp only [argsWellFormedAux, hv, if_pos] at hwf
        simp [validateLoop, hv, reqCount, ih true hwf]
      | false =>
        cases b with
        | true => simp [argsWellFormedAux, hv] at hwf
        | false =>
          have hrest : argsWellFormedAux false rest = true := by
            simpa [argsWellFormedAux, hv] using hwf
          simp [validateLoop, hv, ih false hrest, reqCount, Nat.add_comm]

/-- A well-formed argument list is not the NoArgs marker. -/
theorem wf_ne_noArgs (l : List (Option Argument)) (h : argsWellFormed l = true) :
    l ≠ NoArgs := by
  intro heq
  rw [heq] at h
  simp [argsWellFormed, argsWellFormedAux, NoArgs] at h

/-- A list holding a non-nil argument is not the NoArgs marker. -/
theorem append_some_ne_noArgs (l1 : List (Option Argument)) (a : Argument)
    (rest : List (Option Argument)) : l1 ++ some a :: rest ≠ NoArgs := by
  intro h
  cases l1 with
  | nil => simp [NoArgs] at h
  | cons x xs =>
    simp only [NoArgs, List.cons_append, List.cons.injEq] at h
    exact absurd h.2 (by simp)

/-- Once an optional argument has been seen, reaching a required one makes
the validate loop return the required-after-optional error, provided no nil
entry is hit first. -/
theorem validateLoop_reqAfterOpt_of_optional_seen :
    ∀ (l2 : List (Option Argument)) (l3 : List (Option Argument)) (bArg : Argument),
      allSome l2 = true → bArg.Optional = false →
      ∃ nm, validateLoop true (l2 ++ some bArg :: l3) = .reqAfterOpt nm := by
  intro l2
  induction l2 with
  | nil =>
    intro l3 bArg _ hb
    exact ⟨bArg.Name, by simp [validateLoop, hb]⟩
  | cons x rest ih =>
    intro l3 bArg h1 hb
    cases x with
    | none => simp [allSome] at h1
    | some u =>
      cases hu : u.Optional with
      | true =>
        obtain ⟨nm, hnm⟩ := ih l3 bArg (by simpa [allSome] using h1) hb
        exact ⟨nm, by simp [validateLoop, hu, hnm]⟩
      | false => exact ⟨u.Name, by simp [validateLoop, hu]⟩

/-- The validate loop propagates a required-after-optional error arising in
a suffix, across any nil-free leading segment. -/
theorem validateLoop_append_reqAfterOpt :
    ∀ (l1 : List (Option Argument)) (b : Bool) (suffix : List (Option Argument)),
      allSome l1 = true →
      (∀ b2 : Bool, ∃ nm, validateLoop b2 suffix = .reqAfterOpt nm) →
      ∃ nm, validateLoop b (l1 ++ suffix) = .reqAfterOpt nm := by
  intro l1
  induction l1 with
  | nil => intro b suffix _ hsuf; simpa using hsuf b
  | cons x rest ih =>
    intro b suffix h1 hsuf
    cases x with
    | none => simp [allSome] at h1
    | some u =>
      have h1' : allSome rest = true := by simpa [allSome] using h1
      cases hu : u.Optional with
      | true =>
        obtain ⟨nm, hnm⟩ := ih true suffix h1' hsuf
        exact ⟨nm, by simp [validateLoop, hu, hnm]⟩
      | false =>
        cases b with
        | true => exact ⟨u.Name, by simp [validateLoop, hu]⟩
        | false =>
          obtain ⟨nm, hnm⟩ := ih false suffix h1' hsuf
          exact ⟨nm, by simp [validateLoop, hu, hnm]⟩

/-- A found position points at a declared argument with the looked-up name. -/
theorem argumentPosGo_found :
    ∀ (l : List (Option Argument)) (name : String) (p : Nat),
      argumentPosGo l name = .found p →
      p < l.length ∧ ∃ arg, l.getD p none = some arg ∧ arg.Name = name := by
  intro l
  induction l with
  | nil => intro name p hp; simp [argumentPosGo] at hp
  | cons x rest ih =>
    intro name p hp
    cases x with
    | none => simp [argumentPosGo] at hp
    | some v =>
      by_cases hv : v.Name = name
      · simp only [argumentPosGo, if_pos hv, PosResult.found.injEq] at hp
        subst hp
        exact ⟨by simp, v, rfl, hv⟩
      · simp only [argumentPosGo, if_neg hv] at hp
        cases hres : argumentPosGo rest name with
        | panicNil => rw [hres] at hp; simp at hp
        | notFound => rw [hres] at hp; simp at hp
        | found i =>
          rw [hres] at hp
          simp only [PosResult.found.injEq] at hp
          subst hp
          obtain ⟨hlen, arg, hget, hname⟩ := ih name i hres
          exact ⟨by simpa using hlen, arg, by simpa using hget, hname⟩

/-- When no declared argument carries the name and no nil entry occurs, the
position lookup reports not-found. -/
theorem argumentPosGo_notFound (name : String) :
    ∀ l : List (Option Argument), allSome l = true →
      (∀ arg : Argument, some arg ∈ l → arg.Name ≠ name) →
      argumentPosGo l name = .notFound := by
  intro l
  induction l with
  | nil => intro _ _; rfl
  | cons x rest ih =>
    intro h1 h2
    cases x with
    | none => simp [allSome] at h1
    | some v =>
      have hv : v.Name ≠ name := h2 v (by simp)
      have hrest := ih (by simpa [allSome] using h1)
        (fun arg hm => h2 arg (List.mem_cons_of_mem _ hm))
      simp [argumentPosGo, hv, hrest]

/-- The accumulator form of the field-name loop agrees with the direct
specification form. -/
theorem defaultFieldNameAux_spec :
    ∀ (l runes : List Char),
      defaultFieldNameAux runes l = runes ++ fieldNameSpec runes.isEmpty l := by
  intro l
  induction l with
  | nil => intro runes; simp [defaultFieldNameAux, fieldNameSpec]
  | cons c rest ih =>
    intro runes
    cases hc : c.isUpper with
    | true =>
      cases runes with
      | nil => simp [defaultFieldNameAux, hc, fieldNameSpec, ih]
      | cons r rs => simp [defaultFieldNameAux, hc, fieldNameSpec, ih]
    | false =>
      cases runes with
      | nil => simp [defaultFieldNameAux, hc, fieldNameSpec, ih]
      | cons r rs => simp [defaultFieldNameAux, hc, fieldNameSpec, ih]

/-- commandByName returns none exactly when no command carries the name. -/
theorem commandByName_none_iff (cmds : List Cmd) (name : String) :
    commandByName cmds name = none ↔ ∀ c ∈ cmds, c.Name ≠ name := by
  induction cmds with
  | nil => simp [commandByName]
  | cons x rest ih =>
    by_cases hx : x.Name = name
    · simp only [commandByName, if_pos hx]
      constructor
      · intro h; exact absurd h (by simp)
      · intro h; exact absurd hx (h x (by simp))
    · simp only [commandByName, if_neg hx]
      rw [ih]
      constructor
      · intro h c hc
        rcases List.mem_cons.mp hc with rfl | hc
        · exact hx
        · exact h c hc
      · intro h c hc
        exact h c (List.mem_cons_of_mem _ hc)

/-- A command returned by commandByName carries the name and is the first
such command in registry order. -/
theorem commandByName_some (cmds : List Cmd) (name : String) :
    ∀ c : Cmd, commandByName cmds name = some c →
      c.Name = name ∧ ∃ pre post, cmds = pre ++ c :: post ∧ ∀ d ∈ pre, d.Name ≠ name := by
  induction cmds with
  | nil => intro c h; simp [commandByName] at h
  | cons x rest ih =>
    intro c h
    by_cases hx : x.Name = name
    · simp only [commandByName, if_pos hx, Option.some.injEq] at h
      subst h
      exact ⟨hx, [], rest, rfl, by simp⟩
    · simp only [commandByName, if_neg hx] at h
      obtain ⟨hc, pre, post, heq, hpre⟩ := ih c h
      refine ⟨hc, x :: pre, post, by simp [heq], ?_⟩
      intro d hd
      rcases List.mem_cons.mp hd with rfl | hd
      · exact hx
      · exact hpre d hd

/-- commandByName returns the first name match when everything before it
misses. -/
theorem commandByName_first (name : String) :
    ∀ (pre : List Cmd) (c : Cmd) (post : List Cmd), c.Name = name →
      (∀ d ∈ pre, d.Name ≠ name) → commandByName (pre ++ c :: post) name = some c := by
  intro pre
  induction pre with
  | nil => intro c post hc _; simp [commandByName, hc]
  | cons x xs ih =>
    intro c post hc hpre
    have hx : x.Name ≠ name := hpre x (by simp)
    simp only [List.cons_append, commandByName, if_neg hx]
    exact ih c post hc (fun d hd => hpre d (List.mem_cons_of_mem _ hd))

/-! ### Claim theorems -/

/-- Claim C1: the claim states that a handler-signature mismatch (not a
function, bad first parameter, bad configuration parameter, or bad return
signature) makes RunOpts abort with a non-recoverable panic, never an
ordinary error return.  The code contradicts this: the recoverRun defer is
installed before the signature checks run, so each validation panic is
recovered and RunOpts returns an ordinary formatted error.  This theorem
evaluates the dispatch at three mismatched shapes (not a function, two
return values, missing Args first parameter) and shows the outcome is the
normal-return constructor carrying an error value, not the fatal one. -/
theorem C1_sig_mismatch_recovered :
    runCmd ⟨"x", "", [], false⟩ ⟨false, 0, false, false, 0, false⟩ .retNil [] none
      = .ret (some (.errMsg "panic running command x: command handler x is not a function"))
          ["panic running command x: command handler x is not a function"]
    ∧ runCmd ⟨"x", "", [], false⟩ ⟨true, 1, true, true, 2, true⟩ .retNil [] none
      = .ret (some (.errMsg
            "panic running command x: invalid handler for command x: function must return 0 or 1 arguments, not 2"))
          ["panic running command x: invalid handler for command x: function must return 0 or 1 arguments, not 2"]
    ∧ runCmd ⟨"x", "", [], false⟩ ⟨true, 0, false, false, 0, false⟩ .retNil [] none
      = .ret (some (.errMsg
            "panic running command x: invalid handler for command x: function must accept *command.Args as its first argument"))
          ["panic running command x: invalid handler for command x: function must accept *command.Args as its first argument"] :=
  ⟨rfl, rfl, rfl⟩

/-- Claim C2: the claim states that with the NoArgs marker, zero leftover
tokens validate successfully and one or more tokens yield
ErrUnusedArguments.  The second half holds, but with zero tokens the
validate loop iterates over the nil entry inside NoArgs and dereferences
it: validation panics (a nil dereference the deferred recoverRun then turns
into a panic-running-command error), instead of returning no error. -/
theorem C2_noargs_nil_deref :
    Args.validate (newArgs [] ⟨"quiet", "", NoArgs, false⟩) = .panicked nilDerefMsg
    ∧ Args.validate (newArgs ["extra"] ⟨"quiet", "", NoArgs, false⟩) = .err .errUnusedArguments
    ∧ runCmd ⟨"quiet", "", NoArgs, false⟩ ⟨true, 1, true, true, 0, false⟩ .retNil [] none
      = .ret (some (.errMsg ("panic running command quiet: " ++ nilDerefMsg)))
          ["panic running command quiet: " ++ nilDerefMsg] :=
  ⟨rfl, rfl, rfl⟩

/-- Claim C3 counterexample: for the argument sequence optional-then-
required with two tokens supplied, validation fails with an ordinary error
value that RunOpts returns to the caller as a normal error return — the
constructor is the normal-return one, not the fatal one — refuting the
claim that this failure is a fatal, non-recoverable signal. -/
theorem C3_counterexample_ordinary_error :
    Args.validate (newArgs ["x", "y"]
        ⟨"c", "", [some ⟨"a", "", true⟩, some ⟨"b", "", false⟩], false⟩)
      = .err (.errMsg "required argument \"b\" comes after optional arguments")
    ∧ runCmd ⟨"c", "", [some ⟨"a", "", true⟩, some ⟨"b", "", false⟩], false⟩
        ⟨true, 1, true, true, 0, false⟩ .retNil ["x", "y"] none
      = .ret (some (.errMsg "required argument \"b\" comes after optional arguments")) [] :=
  ⟨rfl, rfl⟩

/-- Claim C3 (amended): for every argument sequence holding a required
argument after an optional one (with no nil entries before it), validation
fails regardless of the supplied tokens, and the failure is returned from
validate — and from the dispatch — as an ordinary recoverable error value,
not a panic. -/
theorem C3_req_after_opt_error (cmd : Cmd) (shape : FnShape) (behavior : FnBehavior)
    (tokens : List String) (loc : Option (String × Nat))
    (l1 l2 l3 : List (Option Argument)) (a b : Argument)
    (hcmd : cmd.Args = l1 ++ some a :: (l2 ++ some b :: l3))
    (h1 : allSome l1 = true) (h2 : allSome l2 = true)
    (ha : a.Optional = true) (hb : b.Optional = false)
    (hf : shape.isFunc = true)
    (hret : validateCmdFuncReturn shape = none)
    (hin : validateCmdFuncInput shape cmd.Options = none) :
    ∃ nm, Args.validate (newArgs tokens cmd) = .err (.errMsg (reqAfterOptMsg nm))
      ∧ runCmd cmd shape behavior tokens loc
          = .ret (some (.errMsg (reqAfterOptMsg nm))) [] := by
  have hsuffix : ∀ b2 : Bool, ∃ nm,
      validateLoop b2 (some a :: (l2 ++ some b :: l3)) = .reqAfterOpt nm := by
    intro b2
    obtain ⟨nm, hnm⟩ := validateLoop_reqAfterOpt_of_optional_seen l2 l3 b h2 hb
    exact ⟨nm, by simp [validateLoop, ha, hnm]⟩
  obtain ⟨nm, hnm⟩ := validateLoop_append_reqAfterOpt l1 false _ h1 hsuffix
  have hne : cmd.Args ≠ NoArgs := by
    rw [hcmd]; exact append_some_ne_noArgs _ _ _
  have hval : Args.validate (newArgs tokens cmd) = .err (.errMsg (reqAfterOptMsg nm)) := by
    rw [hcmd] at hne
    simp [Args.validate, newArgs, hcmd, hne, hnm]
  refine ⟨nm, hval, ?_⟩
  simp [runCmd, hf, hret, hin, hval]

/-- Claim C3 witness: the amended theorem applied to the concrete
optional-then-required sequence with two tokens. -/
theorem C3_req_after_opt_witness :
    ∃ nm, Args.validate (newArgs ["x", "y"]
        ⟨"c", "", [some ⟨"a", "", true⟩, some ⟨"b", "", false⟩], false⟩)
      = .err (.errMsg (reqAfterOptMsg nm))
      ∧ runCmd ⟨"c", "", [some ⟨"a", "", true⟩, some ⟨"b", "", false⟩], false⟩
          ⟨true, 1, true, true, 0, false⟩ .retNil ["x", "y"] none
        = .ret (some (.errMsg (reqAfterOptMsg nm))) [] :=
  C3_req_after_opt_error ⟨"c", "", [some ⟨"a", "", true⟩, some ⟨"b", "", false⟩], false⟩
    ⟨true, 1, true, true, 0, false⟩ .retNil ["x", "y"] none
    [] [] [] ⟨"a", "", true⟩ ⟨"b", "", false⟩ rfl rfl rfl rfl rfl rfl rfl rfl

/-- Claim C4: for a well-formed argument sequence (no nil entries, no
required argument after an optional one) declaring k required arguments,
validation fails with the insufficient-arguments error naming k and the
provided count when fewer than k tokens are supplied, and succeeds when k
or more are supplied. -/
theorem C4_required_count (cmd : Cmd) (tokens : List String)
    (h : argsWellFormed cmd.Args = true) :
    (tokens.length < reqCount cmd.Args →
      Args.validate (newArgs tokens cmd)
        = .err (.errMsg (insufficientMsg (reqCount cmd.Args) tokens.length)))
    ∧ (reqCount cmd.Args ≤ tokens.length → Args.validate (newArgs tokens cmd) = .ok) := by
  have hne : cmd.Args ≠ NoArgs := wf_ne_noArgs cmd.Args h
  have hloop := validateLoop_count_of_wf cmd.Args false h
  constructor
  · intro hlt
    simp [Args.validate, newArgs, hne, hloop, hlt]
  · intro hle
    simp [Args.validate, newArgs, hne, hloop, Nat.not_lt.mpr hle]

/-- Claim C4 witness: one required argument; zero tokens fail naming one
required and zero provided, one token succeeds. -/
theorem C4_required_count_witness :
    Args.validate (newArgs [] ⟨"c", "", [some ⟨"x", "", false⟩], false⟩)
      = .err (.errMsg (insufficientMsg 1 0))
    ∧ Args.validate (newArgs ["t"] ⟨"c", "", [some ⟨"x", "", false⟩], false⟩) = .ok := by
  constructor
  · exact (C4_required_count ⟨"c", "", [some ⟨"x", "", false⟩], false⟩ [] (by decide)).1
      (by decide)
  · exact (C4_required_count ⟨"c", "", [some ⟨"x", "", false⟩], false⟩ ["t"] (by decide)).2
      (by decide)

/-- Claim C5: when the handler panics during invocation, the dispatch
returns (normal-return constructor, not the fatal one) an error reading
"panic running command name at file:line: value" when a source location is
resolved and "panic running command name: value" otherwise, and the same
message is written to the diagnostic stream. -/
theorem C5_handler_panic_recovered (cmd : Cmd) (shape : FnShape) (v : String)
    (tokens : List String) (loc : Option (String × Nat))
    (hf : shape.isFunc = true)
    (hret : validateCmdFuncReturn shape = none)
    (hin : validateCmdFuncInput shape cmd.Options = none)
    (hval : Args.validate (newArgs tokens cmd) = .ok) :
    runCmd cmd shape (.panics v) tokens loc
        = .ret (some (.errMsg (recoverMsg cmd.Name v loc))) [recoverMsg cmd.Name v loc]
    ∧ (∀ f l, recoverMsg cmd.Name v (some (f, l))
        = "panic running command " ++ cmd.Name ++ " at " ++ f ++ ":" ++ toString l
            ++ ": " ++ v)
    ∧ recoverMsg cmd.Name v none = "panic running command " ++ cmd.Name ++ ": " ++ v := by
  refine ⟨?_, fun f l => rfl, rfl⟩
  simp [runCmd, hf, hret, hin, hval, invokeHandler, recoveredOutcome]

/-- Claim C5 witness: a handler panicking with the value oops, with and
without a resolved source location. -/
theorem C5_handler_panic_witness :
    runCmd ⟨"boom", "", [], false⟩ ⟨true, 1, true, true, 0, false⟩ (.panics "oops") []
        (some ("main.go", 12))
      = .ret (some (.errMsg "panic running command boom at main.go:12: oops"))
          ["panic running command boom at main.go:12: oops"]
    ∧ runCmd ⟨"boom", "", [], false⟩ ⟨true, 1, true, true, 0, false⟩ (.panics "oops") [] none
      = .ret (some (.errMsg "panic running command boom: oops"))
          ["panic running command boom: oops"] := by
  constructor
  · exact (C5_handler_panic_recovered ⟨"boom", "", [], false⟩ ⟨true, 1, true, true, 0, false⟩
      "oops" [] (some ("main.go", 12)) rfl rfl rfl rfl).1
  · exact (C5_handler_panic_recovered ⟨"boom", "", [], false⟩ ⟨true, 1, true, true, 0, false⟩
      "oops" [] none rfl rfl rfl rfl).1

/-- Claim C6: for a name declared in the argument sequence of the command (found
at its declared position p), string lookup returns the token at p, or the
empty string when p is at or past the provided count — without failing —
while integer lookup panics exactly when the token at p is missing or does
not parse as an integer, and returns the parsed value otherwise. -/
theorem C6_lookup_by_name (cmd : Cmd) (tokens : List String) (name : String) (p : Nat)
    (hp : argumentPosGo cmd.Args name = .found p) :
    (p < cmd.Args.length ∧ ∃ arg, cmd.Args.getD p none = some arg ∧ arg.Name = name)
    ∧ Args.String (newArgs tokens cmd) name = .ok (Args.StringAt (newArgs tokens cmd) p)
    ∧ (tokens.length ≤ p → Args.String (newArgs tokens cmd) name = .ok "")
    ∧ (p < tokens.length →
        Args.String (newArgs tokens cmd) name = .ok (tokens.getD p ""))
    ∧ ((∃ m, Args.Int (newArgs tokens cmd) name = .panicked m)
        ↔ (tokens.length ≤ p ∨ atoi (tokens.getD p "") = none))
    ∧ (∀ v, atoi (Args.StringAt (newArgs tokens cmd) p) = some v →
        Args.Int (newArgs tokens cmd) name = .ok v) := by
  have hstr : Args.String (newArgs tokens cmd) name
      = .ok (Args.StringAt (newArgs tokens cmd) p) := by
    simp [Args.String, Args.argumentPos, newArgs, hp]
  have hint : Args.Int (newArgs tokens cmd) name
      = (match atoi (Args.StringAt (newArgs tokens cmd) p) with
         | some v => .ok v
         | none => .panicked (parseIntMsg name)) := by
    rw [Args.Int, hstr]
  refine ⟨argumentPosGo_found cmd.Args name p hp, hstr, ?_, ?_, ?_, ?_⟩
  · intro hle
    rw [hstr]
    simp [Args.StringAt, newArgs, hle]
  · intro hlt
    rw [hstr]
    simp [Args.StringAt, newArgs, Nat.not_le.mpr hlt]
  · by_cases hle : tokens.length ≤ p
    · have hSA : Args.StringAt (newArgs tokens cmd) p = "" := by
        simp [Args.StringAt, newArgs, hle]
      rw [hint, hSA]
      exact ⟨fun _ => Or.inl hle, fun _ => ⟨parseIntMsg name, rfl⟩⟩
    · have hSA : Args.StringAt (newArgs tokens cmd) p = tokens.getD p "" := by
        simp [Args.StringAt, newArgs, hle]
      rw [hint, hSA]
      cases hatoi : atoi (tokens.getD p "") with
      | none =>
        exact ⟨fun _ => Or.inr rfl, fun _ => ⟨parseIntMsg name, rfl⟩⟩
      | some v =>
        constructor
        · intro hm
          obtain ⟨m, hm⟩ := hm
          simp at hm
        · intro hor
          rcases hor with hle' | hnone
          · exact absurd hle' hle
          · simp at hnone
  · intro v hv
    rw [hint, hv]

/-- Claim C6 witness: a single declared required argument named n at
position zero; a provided token 7 reads back as string and int; with no
tokens the string lookup yields empty and the int lookup panics. -/
theorem C6_lookup_by_name_witness :
    Args.String (newArgs ["7"] ⟨"c", "", [some ⟨"n", "", false⟩], false⟩) "n" = .ok "7"
    ∧ Args.String (newArgs [] ⟨"c", "", [some ⟨"n", "", false⟩], false⟩) "n" = .ok ""
    ∧ Args.Int (newArgs ["7"] ⟨"c", "", [some ⟨"n", "", false⟩], false⟩) "n" = .ok 7
    ∧ (∃ m, Args.Int (newArgs [] ⟨"c", "", [some ⟨"n", "", false⟩], false⟩) "n"
        = .panicked m) := by
  refine ⟨?_, ?_, ?_, ?_⟩
  · exact (C6_lookup_by_name ⟨"c", "", [some ⟨"n", "", false⟩], false⟩ ["7"] "n" 0
      rfl).2.2.2.1 (by decide)
  · exact (C6_lookup_by_name ⟨"c", "", [some ⟨"n", "", false⟩], false⟩ [] "n" 0
      rfl).2.2.1 (by decide)
  · exact (C6_lookup_by_name ⟨"c", "", [some ⟨"n", "", false⟩], false⟩ ["7"] "n" 0
      rfl).2.2.2.2.2 7 rfl
  · exact (C6_lookup_by_name ⟨"c", "", [some ⟨"n", "", false⟩], false⟩ [] "n" 0
      rfl).2.2.2.2.1.mpr (Or.inl (by decide))

/-- Claim C7: the derived flag name of a configuration field lowercases
each uppercase rune and precedes it with a hyphen unless it is the first
rune (shown by agreement of the source loop with the direct specification
form), and a non-empty name tag overrides the derivation entirely. -/
theorem C7_flag_name_derivation (fieldName nameTag : String) :
    defaultFieldName fieldName = String.mk (fieldNameSpec true fieldName.toList)
    ∧ (nameTag ≠ "" → fieldFlagName fieldName nameTag = nameTag)
    ∧ (nameTag = "" → fieldFlagName fieldName nameTag = defaultFieldName fieldName) := by
  refine ⟨?_, ?_, ?_⟩
  · rw [defaultFieldName, defaultFieldNameAux_spec]
    rfl
  · intro h; simp [fieldFlagName, h]
  · intro h; simp [fieldFlagName, h]

/-- Claim C7 witness: the derivation on the identifier FooBar and the
override by a tag. -/
theorem C7_flag_name_derivation_witness :
    fieldFlagName "FooBar" "fb" = "fb"
    ∧ fieldFlagName "FooBar" "" = defaultFieldName "FooBar"
    ∧ defaultFieldName "FooBar" = "foo-bar" := by
  refine ⟨?_, ?_, rfl⟩
  · exact (C7_flag_name_derivation "FooBar" "fb").2.1 (by decide)
  · exact (C7_flag_name_derivation "FooBar" "").2.2 rfl

/-- Claim C8: the exit-status mapping of the dispatch result is total and
exact — nil maps to 0, the help sentinel to 2, the no-command sentinel to
3, the unused-arguments sentinel to 4, and every other error value to 1. -/
theorem C8_exit_status :
    exitStatus none = 0
    ∧ exitStatus (some .errHelp) = 2
    ∧ exitStatus (some .errNoCommand) = 3
    ∧ exitStatus (some .errUnusedArguments) = 4
    ∧ ∀ e : GoError, e ≠ .errHelp → e ≠ .errNoCommand → e ≠ .errUnusedArguments →
        exitStatus (some e) = 1 := by
  refine ⟨rfl, rfl, rfl, rfl, ?_⟩
  intro e h1 h2 h3
  cases e with
  | errHelp => exact absurd rfl h1
  | errNoCommand => exact absurd rfl h2
  | errUnusedArguments => exact absurd rfl h3
  | unknownCommand n => rfl
  | errMsg m => rfl

/-- Claim C8 witness: an unknown-command error and a handler error both map
to status 1. -/
theorem C8_exit_status_witness :
    exitStatus (some (.unknownCommand "nope")) = 1
    ∧ exitStatus (some (.errMsg "boom")) = 1 :=
  ⟨C8_exit_status.2.2.2.2 (.unknownCommand "nope") (by decide) (by decide) (by decide),
   C8_exit_status.2.2.2.2 (.errMsg "boom") (by decide) (by decide) (by decide)⟩

/-- Claim C9: command resolution is deterministic first-match — lookup
returns none exactly when no command carries the name, any returned command
carries the name and is preceded only by non-matching commands, and the
first matching command in registry order is the one returned, so earlier
duplicates win. -/
theorem C9_command_resolution (cmds : List Cmd) (name : String) :
    (commandByName cmds name = none ↔ ∀ c ∈ cmds, c.Name ≠ name)
    ∧ (∀ c, commandByName cmds name = some c →
        c.Name = name ∧ ∃ pre post, cmds = pre ++ c :: post ∧ ∀ d ∈ pre, d.Name ≠ name)
    ∧ (∀ pre c post, cmds = pre ++ c :: post → c.Name = name →
        (∀ d ∈ pre, d.Name ≠ name) → commandByName cmds name = some c) := by
  refine ⟨commandByName_none_iff cmds name, commandByName_some cmds name, ?_⟩
  intro pre c post heq hc hpre
  rw [heq]
  exact commandByName_first name pre c post hc hpre

/-- Claim C9 witness: with two commands sharing the name a, lookup returns
the earlier one; a missing name yields none. -/
theorem C9_command_resolution_witness :
    commandByName [⟨"a", "first", [], false⟩, ⟨"a", "second", [], false⟩] "a"
      = some ⟨"a", "first", [], false⟩
    ∧ commandByName [⟨"a", "first", [], false⟩] "b" = none := by
  constructor
  · exact (C9_command_resolution [⟨"a", "first", [], false⟩, ⟨"a", "second", [], false⟩]
      "a").2.2 [] ⟨"a", "first", [], false⟩ [⟨"a", "second", [], false⟩] rfl rfl (by simp)
  · exact (C9_command_resolution [⟨"a", "first", [], false⟩] "b").1.mpr (by decide)

/-- Claim C10: string lookup by a name not declared in the argument
sequence of the command (which has no nil entries) panics with the
argument-not-found value instead of returning any string, so in particular
it does not return the empty string. -/
theorem C10_undeclared_name (cmd : Cmd) (tokens : List String) (name : String)
    (h1 : allSome cmd.Args = true)
    (h2 : ∀ arg : Argument, some arg ∈ cmd.Args → arg.Name ≠ name) :
    Args.String (newArgs tokens cmd) name = .panicked (notFoundMsg name)
    ∧ ∀ s, Args.String (newArgs tokens cmd) name ≠ .ok s := by
  have hpos := argumentPosGo_notFound name cmd.Args h1 h2
  have heq : Args.String (newArgs tokens cmd) name = .panicked (notFoundMsg name) := by
    simp [Args.String, Args.argumentPos, newArgs, hpos]
  refine ⟨heq, ?_⟩
  intro s hs
  rw [heq] at hs
  simp at hs

/-- Claim C10 witness: looking up the undeclared name y on a command
declaring only x panics with the argument-not-found value. -/
theorem C10_undeclared_name_witness :
    Args.String (newArgs [] ⟨"c", "", [some ⟨"x", "", false⟩], false⟩) "y"
      = .panicked (notFoundMsg "y") :=
  (C10_undeclared_name ⟨"c", "", [some ⟨"x", "", false⟩], false⟩ [] "y" (by decide)
    (by intro arg h; simp at h; subst h; decide)).1

end Command
